import Mathlib

set_option maxRecDepth 10000

/-!
Verification of the catalog-cleaning pipeline of `HST_Sextractor_new.py`.

Shallow embedding of the catalog cleaning and geometric-masking pipeline
(segmentation filtering, merge, star/galaxy classification, SNR derivation,
edge filtering, diffraction-spike masking, final overlap/null cleanup).

Floating-point quantities are embedded as exact rationals (`ℚ`); integer
columns (`XMIN_IMAGE`, …) as `Int`; a catalog is a `List` of records; a
nullable table cell (asciidata `None`) is an `Option`.  Helper functions
that live in the repository's `cleanutils.py` (not shipped alongside the
main script) are modelled from the specification and marked as such.
-/

/-- One detected object: a row of a SExtractor catalog restricted to the
`output_params` columns of `HST_Sextractor_new.py`, plus the two derived
columns `IS_STAR` and `SNR` added by the pipeline.  `NUMBER` is an
`Option` because an asciidata cell may hold the null sentinel `None`. -/
structure GalRecord where
  NUMBER : Option Int := none
  X_IMAGE : ℚ := 0
  Y_IMAGE : ℚ := 0
  A_IMAGE : ℚ := 0
  B_IMAGE : ℚ := 0
  ALPHA_SKY : ℚ := 0
  DELTA_SKY : ℚ := 0
  XMIN_IMAGE : Int := 0
  XMAX_IMAGE : Int := 0
  YMIN_IMAGE : Int := 0
  YMAX_IMAGE : Int := 0
  FLAGS : Int := 0
  MU_MAX : ℚ := 0
  MAG_AUTO : ℚ := 0
  CLASS_STAR : ℚ := 0
  FLUX_RADIUS : ℚ := 0
  FLUX_AUTO : ℚ := 0
  FLUXERR_AUTO : ℚ := 0
  IS_STAR : Int := 0
  SNR : ℚ := 0
deriving DecidableEq, Repr

/-- Python's `range(a, b)` over integers: the half-open interval `[a, b)`. -/
def intRange (a b : Int) : List Int :=
  (List.range (b - a).toNat).map (fun k : Nat => a + (k : Int))

theorem mem_intRange {a b x : Int} : x ∈ intRange a b ↔ a ≤ x ∧ x < b := by
  rw [intRange, List.mem_map]
  constructor
  · rintro ⟨k, hk, rfl⟩
    rw [List.mem_range] at hk
    omega
  · intro ⟨h1, h2⟩
    refine ⟨(x - a).toNat, ?_, ?_⟩
    · rw [List.mem_range]; omega
    · omega

theorem intRange_self (a : Int) : intRange a a = [] := by
  simp [intRange]

/-- Mirror of the hole-compaction idiom of the script: a fresh table whose
row `i` is either a copy of input row `i` or left empty (`none`), followed
by the `while`-loop that deletes every empty row. -/
def compactRows (rows : List (Option GalRecord)) : List GalRecord :=
  rows.filterMap id

theorem compactRows_map_ite (p : GalRecord → Bool) (cat : List GalRecord) :
    compactRows (cat.map (fun r => if p r then some r else none)) = cat.filter p := by
  induction cat with
  | nil => rfl
  | cons r rs ih =>
    by_cases h : p r <;> simp [compactRows, List.filterMap_cons, h, List.filter_cons] at * <;>
      exact ih

/-! Stage `make_segmentation_map`: the script allocates
`np.zeros((x_dim, y_dim))` (with `x_dim = NAXIS1`, `y_dim = NAXIS2`) and,
for every bright record and every `x` in `range(x_min-enlarge, x_max+enlarge)`
and `y` in `range(y_min-enlarge, y_max+enlarge)`, executes
`segmentation_map_array[y, x] = 1` inside a `try/except: continue`.
Under numpy semantics the write raises `IndexError` (caught, skipped) exactly
when `y ∉ [-x_dim, x_dim)` or `x ∉ [-y_dim, y_dim)`; a negative in-range
index wraps to the opposite side of the axis.  The grid is embedded as the
list of cells holding 1: cell `(i, j)` of the array is 1 iff `(i, j)` is a
member of the list. -/

/-- The set (as a list) of cells of the segmentation-map array that are set
to 1, mirroring the loop nest of `make_segmentation_map`. -/
def make_segmentation_map (x_dim y_dim enlarge : Int) (cat : List GalRecord) :
    List (Int × Int) :=
  cat.flatMap (fun r =>
    (intRange (r.XMIN_IMAGE - enlarge) (r.XMAX_IMAGE + enlarge)).flatMap (fun x =>
      (intRange (r.YMIN_IMAGE - enlarge) (r.YMAX_IMAGE + enlarge)).filterMap (fun y =>
        if -x_dim ≤ y ∧ y < x_dim ∧ -y_dim ≤ x ∧ x < y_dim then
          some (y.emod x_dim, x.emod y_dim)
        else none)))

/-- Truncation of a rational toward zero, the semantics of Python's
`int(...)` on a float and of (pre-1.12) numpy float scalar indexing. -/
def ratTrunc (q : ℚ) : Int := q.num.tdiv (q.den : Int)

/-- Stage `filter_cat_with_segmentation_map`: keep a faint record exactly
when the segmentation-map cell `data[y_center, x_center]` at its centroid
is 0, copying all column values verbatim; rows never copied are deleted by
the hole-compaction loop.  `data i j` embeds the array access `data[i, j]`. -/
def filter_cat_with_segmentation_map (data : Int → Int → ℚ)
    (cat : List GalRecord) : List GalRecord :=
  compactRows (cat.map (fun r =>
    if data (ratTrunc r.Y_IMAGE) (ratTrunc r.X_IMAGE) = 0 then some r else none))

/-- A catalog line is a header line when it starts with `#`
(the script's test `line[0] == "#"`). -/
def is_header (line : String) : Bool := line.startsWith "#"

/-- Stage `merge`: write every line of the bright catalog, then every
non-header line of the (filtered) faint catalog. -/
def merge (bright faint : List String) : List String :=
  bright ++ faint.filter (fun line => !is_header line)

/-- Modelled from the spec: `is_below_boundary` lives in the repository's
`cleanutils.py`, which is not shipped with the main script.  Per the spec:
if `mag < flat_x` compare `mu < flat_y` (flat segment), otherwise compare
`mu < slope*mag + intercept` (sloped segment), both strict. -/
def is_below_boundary (mag mu flat_x flat_y slope intercept : ℚ) : Bool :=
  if mag < flat_x then decide (mu < flat_y)
  else decide (mu < slope * mag + intercept)

/-- Per-record body of `alter_catalog_for_classification`: set `IS_STAR := 1`
iff `is_below_boundary(MAG_AUTO+25, MU_MAX, ...)` and `MAG_AUTO+25 < 25.0`,
else `IS_STAR := 0`. -/
def classify (flat_x flat_y slope intercept : ℚ) (r : GalRecord) : GalRecord :=
  if is_below_boundary (r.MAG_AUTO + 25) r.MU_MAX flat_x flat_y slope intercept &&
      decide (r.MAG_AUTO + 25 < 25) then
    { r with IS_STAR := 1 }
  else
    { r with IS_STAR := 0 }

/-- Stage `alter_catalog_for_classification` applied to a whole catalog. -/
def alter_catalog_for_classification (flat_x flat_y slope intercept : ℚ)
    (cat : List GalRecord) : List GalRecord :=
  cat.map (classify flat_x flat_y slope intercept)

/-- The script's `star_galaxy_weights = (19.0, -9.8, 0.9, -26.9)`. -/
def star_galaxy_weights : ℚ × ℚ × ℚ × ℚ := (19, -98/10, 9/10, -269/10)

/-- Stage `make_SNR`: `catalog['SNR'][i] = FLUX_AUTO / FLUXERR_AUTO` for
every row, in order.  Python float division raises `ZeroDivisionError` when
the divisor is exactly zero, aborting the stage, which the embedding
represents as `Except.error`. -/
def make_SNR : List GalRecord → Except Unit (List GalRecord)
  | [] => Except.ok []
  | r :: rs =>
    if r.FLUXERR_AUTO = 0 then Except.error ()
    else
      match make_SNR rs with
      | Except.error e => Except.error e
      | Except.ok rest =>
        Except.ok ({ r with SNR := r.FLUX_AUTO / r.FLUXERR_AUTO } :: rest)

/-- Modelled from the spec: `points_to_line` lives in the repository's
`cleanutils.py`.  Per the spec each pair of field corners defines a line,
returned as `(slope, intercept)`. -/
def points_to_line (p q : ℚ × ℚ) : ℚ × ℚ :=
  let m := (q.2 - p.2) / (q.1 - p.1)
  (m, p.2 - m * p.1)

/-- Field corner `A = (390., 321.)` of `edge_overlap_clean`. -/
def edge_A : ℚ × ℚ := (390, 321)

/-- Field corner `B = (498., 6725.)` of `edge_overlap_clean`. -/
def edge_B : ℚ × ℚ := (498, 6725)

/-- Field corner `C = (6898., 7287.)` of `edge_overlap_clean`. -/
def edge_C : ℚ × ℚ := (6898, 7287)

/-- Field corner `D = (7002., 806.)` of `edge_overlap_clean`. -/
def edge_D : ℚ × ℚ := (7002, 806)

/-- The per-record survival test of `edge_overlap_clean`:
`x_min < left_m*x_min+left_b and x_max < right_m*x_max+right_b and
y_min > bottom_m*y_min+bottom_b and y_max < top_m*y_max+top_b`. -/
def edge_survives (r : GalRecord) : Bool :=
  let left := points_to_line edge_A edge_B
  let top := points_to_line edge_B edge_C
  let right := points_to_line edge_C edge_D
  let bottom := points_to_line edge_D edge_A
  decide ((r.XMIN_IMAGE : ℚ) < left.1 * (r.XMIN_IMAGE : ℚ) + left.2) &&
  decide ((r.XMAX_IMAGE : ℚ) < right.1 * (r.XMAX_IMAGE : ℚ) + right.2) &&
  decide ((r.YMIN_IMAGE : ℚ) > bottom.1 * (r.YMIN_IMAGE : ℚ) + bottom.2) &&
  decide ((r.YMAX_IMAGE : ℚ) < top.1 * (r.YMAX_IMAGE : ℚ) + top.2)

/-- Stage `edge_overlap_clean` on the data rows: copy surviving rows into a
fresh table at their original index, then compact the holes away. -/
def edge_overlap_clean (cat : List GalRecord) : List GalRecord :=
  compactRows (cat.map (fun r => if edge_survives r then some r else none))

/-! Stage `diffraction_mask_cleanup`.  `diff_spike_params = (m, b, w, theta)`;
the script sets `w := diff_spike_params[2] * 0.5` and builds, for every
record with `MAG_AUTO + 25 < mag_cutoff` (default `19.0`) and `IS_STAR == 1`,
a 16-vertex polygon around the centroid which it then rotates by `theta`
about the centroid (`rotate`, from the repository's `cleanutils.py`).
Every non-star record is tested by sampling the integer pixels of its
bounding box via four half-open `range(...)` edge lists and evaluating
`inpoly` (also from `cleanutils.py`) on every pixel/polygon pair;
`max(bools) == 1` marks the record's `NUMBER` for deletion, and `max`
raises `ValueError` on an empty list. -/

/-- Modelled from the spec: `inpoly` lives in the repository's
`cleanutils.py`.  Per the spec it is a standard ray-casting
point-in-polygon test (the classic even-odd crossing rule over the
polygon's edge list, with vertices given as parallel x- and y-lists). -/
def inpoly (x y : ℚ) (xs ys : List ℚ) : Bool :=
  let n := xs.length
  (List.range n).foldl
    (fun c i =>
      let j := (i + n - 1) % n
      let xi := xs.getD i 0
      let yi := ys.getD i 0
      let xj := xs.getD j 0
      let yj := ys.getD j 0
      if (decide (y < yi) != decide (y < yj)) &&
          decide (x < (xj - xi) * (y - yi) / (yj - yi) + xi) then !c else c)
    false

/-- `np.mean` of a list of rationals. -/
def np_mean (l : List ℚ) : ℚ := l.sum / (l.length : ℚ)

/-- The absolute x-coordinates of the 16 spike-mask vertices built by
`diffraction_mask_cleanup` around centroid x-coordinate `x0`
(`w` = half-width, `r` = radius, `l` = spike length). -/
def spike_x_vertices (x0 w r l : ℚ) : List ℚ :=
  [x0-w, x0-w, x0+w, x0+w, x0+r, x0+l, x0+l, x0+r,
   x0+w, x0+w, x0-w, x0-w, x0-r, x0-l, x0-l, x0-r]

/-- The absolute y-coordinates of the 16 spike-mask vertices built by
`diffraction_mask_cleanup` around centroid y-coordinate `y0`. -/
def spike_y_vertices (y0 w r l : ℚ) : List ℚ :=
  [y0+r, y0+l, y0+l, y0+r, y0+w, y0+w, y0-w, y0-w,
   y0-r, y0-l, y0-l, y0-r, y0-w, y0-w, y0+w, y0+w]

/-- Modelled from the spec: `rotate` lives in the repository's
`cleanutils.py`.  Per the spec it rotates every vertex about the centroid
`(x0, y0)` by the angle `theta`; since the embedding works over exact
rationals it is parametrized by `c = cos theta` and `s = sin theta`. -/
def rotate (xs ys : List ℚ) (x0 y0 c s : ℚ) : List ℚ × List ℚ :=
  ((xs.zip ys).map (fun p => x0 + c * (p.1 - x0) - s * (p.2 - y0)),
   (xs.zip ys).map (fun p => y0 + s * (p.1 - x0) + c * (p.2 - y0)))

/-- The (rotated) spike mask generated for one record:
`radius = np.mean([A_IMAGE, B_IMAGE])`, `length = m*FLUX_AUTO + b`. -/
def spike_mask (m b w c s : ℚ) (r : GalRecord) : List ℚ × List ℚ :=
  let x0 := r.X_IMAGE
  let y0 := r.Y_IMAGE
  let rad := np_mean [r.A_IMAGE, r.B_IMAGE]
  let len := m * r.FLUX_AUTO + b
  rotate (spike_x_vertices x0 w rad len) (spike_y_vertices y0 w rad len) x0 y0 c s

/-- The mask-generation guard of `diffraction_mask_cleanup`:
`MAG_AUTO + 25 < mag_cutoff and IS_STAR == 1`. -/
def mask_condition (cutoff : ℚ) (r : GalRecord) : Bool :=
  decide (r.MAG_AUTO + 25 < cutoff) && decide (r.IS_STAR = 1)

/-- All spike masks generated from a catalog (one per record passing
`mask_condition`, in catalog order). -/
def diffraction_masks (m b w c s cutoff : ℚ) (cat : List GalRecord) :
    List (List ℚ × List ℚ) :=
  (cat.filter (mask_condition cutoff)).map (spike_mask m b w c s)

/-- The script's `w = diff_spike_params[2] * 0.5`. -/
def cleanup_half_width (wparam : ℚ) : ℚ := wparam * (1/2)

/-- The perimeter pixels sampled for one record:
`bottom_pixels + left_pixels + top_pixels + right_pixels`, each built from a
half-open Python `range`. -/
def perimeter_pixels (x_min y_min x_max y_max : Int) : List (Int × Int) :=
  (intRange x_min x_max).map (fun x => (x, y_min)) ++
  (intRange y_min y_max).map (fun y => (x_min, y)) ++
  (intRange x_min x_max).map (fun x => (x, y_max)) ++
  (intRange y_min y_max).map (fun y => (x_max, y))

/-- The sampled pixels of a record (the script applies `int(...)` to the
bounding-box columns, which are already integral). -/
def record_pixels (r : GalRecord) : List (Int × Int) :=
  perimeter_pixels r.XMIN_IMAGE r.YMIN_IMAGE r.XMAX_IMAGE r.YMAX_IMAGE

/-- Spec-side definition, following the spec's words only: every integer
pixel along the perimeter of the bounding box, all four edges inclusive. -/
def spec_perimeter_pixels (x_min y_min x_max y_max : Int) : List (Int × Int) :=
  (intRange x_min (x_max + 1)).flatMap (fun x =>
    (intRange y_min (y_max + 1)).filterMap (fun y =>
      if x = x_min ∨ x = x_max ∨ y = y_min ∨ y = y_max then some (x, y)
      else none))

/-- The comprehension `[inpoly(px, py, xs[j], ys[j]) for pixel in pixels
for j in range(len(x_vertex_sets))]`. -/
def mask_bools (masks : List (List ℚ × List ℚ)) (pixels : List (Int × Int)) :
    List Bool :=
  pixels.flatMap (fun p =>
    masks.map (fun mk => inpoly (p.1 : ℚ) (p.2 : ℚ) mk.1 mk.2))

/-- The deletion loop of `diffraction_mask_cleanup`: star records are
skipped; for every other record `max(bools) == 1` appends its `NUMBER` to
`delete_numbers`, and `max([])` raises `ValueError` (embedded as
`Except.error`). -/
def diffraction_delete_numbers (masks : List (List ℚ × List ℚ)) :
    List GalRecord → Except Unit (List (Option Int))
  | [] => Except.ok []
  | r :: rs =>
    if r.IS_STAR = 1 then diffraction_delete_numbers masks rs
    else
      match mask_bools masks (record_pixels r) with
      | [] => Except.error ()
      | b :: bs =>
        match diffraction_delete_numbers masks rs with
        | Except.error e => Except.error e
        | Except.ok rest =>
          if (b :: bs).any id then Except.ok (r.NUMBER :: rest)
          else Except.ok rest

/-- The deletion-and-compaction part of `diffraction_mask_cleanup`, given
the generated masks: copy every row whose `NUMBER` is not in
`delete_numbers` into a fresh table, then compact the holes away. -/
def diffraction_cleanup_with (masks : List (List ℚ × List ℚ))
    (cat : List GalRecord) : Except Unit (List GalRecord) :=
  match diffraction_delete_numbers masks cat with
  | Except.error e => Except.error e
  | Except.ok dels =>
    Except.ok (compactRows (cat.map (fun r =>
      if r.NUMBER ∈ dels then none else some r)))

/-- Full stage `diffraction_mask_cleanup` (data rows): generate the spike
masks from the catalog, then delete and compact. -/
def diffraction_mask_cleanup (m b wparam c s cutoff : ℚ)
    (cat : List GalRecord) : Except Unit (List GalRecord) :=
  diffraction_cleanup_with
    (diffraction_masks m b (cleanup_half_width wparam) c s cutoff cat) cat

/-! Final cleanup of `generate_catalog`: `diffraction_mask_cleanup`, then
`delete_overlap`, then `delete_null`, then `renumber`, all from the
repository's `cleanutils.py` and therefore modelled from the spec. -/

/-- The bounding box of a record, the key under which the spec's
overlap pass detects exact geometric duplicates. -/
def bbox_key (r : GalRecord) : Int × Int × Int × Int :=
  (r.XMIN_IMAGE, r.XMAX_IMAGE, r.YMIN_IMAGE, r.YMAX_IMAGE)

/-- Modelled from the spec: `delete_overlap` (cleanutils) deletes any
record that is an exact geometric duplicate (same bounding box) of
another, keeping the first occurrence. -/
def delete_overlap : List GalRecord → List GalRecord
  | [] => []
  | r :: rs =>
    r :: delete_overlap (rs.filter (fun q => decide (bbox_key q ≠ bbox_key r)))
termination_by l => l.length
decreasing_by
  simp only [List.length_cons]
  have h := List.length_filter_le (fun q => decide (bbox_key q ≠ bbox_key r)) rs
  omega

/-- Modelled from the spec: `delete_null` (cleanutils) deletes any record
whose primary-key column holds the null sentinel. -/
def delete_null (cat : List GalRecord) : List GalRecord :=
  cat.filter (fun r => r.NUMBER.isSome)

/-- Modelled from the spec: `renumber` (cleanutils) reassigns `NUMBER` to
`1..N` in current row order; `renumberFrom n` numbers a suffix starting
at `n`. -/
def renumberFrom (n : Int) : List GalRecord → List GalRecord
  | [] => []
  | r :: rs => { r with NUMBER := some n } :: renumberFrom (n + 1) rs

/-- Modelled from the spec: `renumber` (cleanutils), starting at 1. -/
def renumber (cat : List GalRecord) : List GalRecord := renumberFrom 1 cat

/-- The final-cleanup sequence of `generate_catalog` after diffraction
masking: `delete_overlap`, then `delete_null`, then `renumber`, in exactly
that order. -/
def final_cleanup (cat : List GalRecord) : List GalRecord :=
  renumber (delete_null (delete_overlap cat))

/-! Claim C4: classification rule. -/

/-- C4: for every record of the merged catalog the classification stage
sets `IS_STAR = 1` iff `mag' = MAG_AUTO + 25` satisfies `mag' < 25.0` and
`(mag', MU_MAX)` lies strictly below the piecewise boundary
(`MU_MAX < flat_y` when `mag' < flat_x`, otherwise
`MU_MAX < slope*mag' + intercept`); every other record gets `IS_STAR = 0`,
equality on the boundary classifying as not-star. -/
theorem C4_classification (flat_x flat_y slope intercept : ℚ)
    (cat : List GalRecord) :
    alter_catalog_for_classification flat_x flat_y slope intercept cat =
      cat.map (classify flat_x flat_y slope intercept) ∧
    (∀ r : GalRecord,
      ((classify flat_x flat_y slope intercept r).IS_STAR = 1 ↔
        (r.MAG_AUTO + 25 < 25 ∧
          (if r.MAG_AUTO + 25 < flat_x then r.MU_MAX < flat_y
           else r.MU_MAX < slope * (r.MAG_AUTO + 25) + intercept))) ∧
      ((classify flat_x flat_y slope intercept r).IS_STAR = 0 ↔
        ¬ (r.MAG_AUTO + 25 < 25 ∧
          (if r.MAG_AUTO + 25 < flat_x then r.MU_MAX < flat_y
           else r.MU_MAX < slope * (r.MAG_AUTO + 25) + intercept)))) := by
  refine ⟨rfl, fun r => ?_⟩
  by_cases hx : r.MAG_AUTO + 25 < flat_x <;>
    by_cases h25 : r.MAG_AUTO + 25 < 25 <;>
      by_cases hflat : r.MU_MAX < flat_y <;>
        by_cases hslope : r.MU_MAX < slope * (r.MAG_AUTO + 25) + intercept <;>
          simp [classify, is_below_boundary, hx, h25, hflat, hslope]

/-- Sample record for the C4 witness: `mag' = 16 < 19`, `MU_MAX = -11 < -9.8`. -/
def rC4 : GalRecord := { MAG_AUTO := -9, MU_MAX := -11 }

/-- Witness for C4 at the script's `star_galaxy_weights` and a concrete
record, every definition evaluated. -/
theorem C4_classification_witness :
    alter_catalog_for_classification 19 (-98/10) (9/10) (-269/10) [rC4] =
      List.map (classify 19 (-98/10) (9/10) (-269/10)) [rC4] ∧
    ((classify 19 (-98/10) (9/10) (-269/10) rC4).IS_STAR = 1 ↔
      (rC4.MAG_AUTO + 25 < 25 ∧
        (if rC4.MAG_AUTO + 25 < 19 then rC4.MU_MAX < -98/10
         else rC4.MU_MAX < (9/10) * (rC4.MAG_AUTO + 25) + (-269/10)))) :=
  ⟨(C4_classification 19 (-98/10) (9/10) (-269/10) [rC4]).1,
   ((C4_classification 19 (-98/10) (9/10) (-269/10) [rC4]).2 rC4).1⟩

/-! Claim C6: the SNR stage. -/

/-- Record with `FLUXERR_AUTO = 0` exhibiting the division-by-zero abort. -/
def rC6 : GalRecord := { FLUX_AUTO := 1, FLUXERR_AUTO := 0 }

/-- C6 counterexample: on a record whose `FLUXERR_AUTO` is exactly zero the
stage aborts with a `ZeroDivisionError` (embedded `Except.error`) instead of
propagating a sentinel value; no output catalog is produced at all. -/
theorem C6_zero_fluxerr_counterexample :
    make_SNR [rC6] = Except.error () := by
  with_unfolding_all rfl

/-- C6 amended: when every record has nonzero `FLUXERR_AUTO`, the stage
computes `SNR = FLUX_AUTO / FLUXERR_AUTO` for every record and drops none;
when some record's `FLUXERR_AUTO` is exactly zero the stage aborts
(`ZeroDivisionError`), producing no catalog, rather than propagating a
sentinel for that record. -/
theorem C6_make_SNR_amended (cat : List GalRecord)
    (h : ∀ r ∈ cat, r.FLUXERR_AUTO ≠ 0) :
    make_SNR cat =
      Except.ok (cat.map (fun r => { r with SNR := r.FLUX_AUTO / r.FLUXERR_AUTO })) := by
  induction cat with
  | nil => rfl
  | cons r rs ih =>
    have hr : r.FLUXERR_AUTO ≠ 0 := h r (List.mem_cons_self r rs)
    have hrest := ih (fun q hq => h q (List.mem_cons_of_mem r hq))
    simp [make_SNR, hr, hrest]

/-- Record with nonzero `FLUXERR_AUTO` for the C6 witness. -/
def rC6b : GalRecord := { FLUX_AUTO := 6, FLUXERR_AUTO := 2 }

/-- Witness for the amended C6 at a concrete one-record catalog. -/
theorem C6_make_SNR_witness :
    make_SNR [rC6b] =
      Except.ok (List.map (fun r => { r with SNR := r.FLUX_AUTO / r.FLUXERR_AUTO }) [rC6b]) :=
  C6_make_SNR_amended [rC6b] (by with_unfolding_all decide)

/-! Claim C3: the merge stage. -/

/-- C3: merging a well-formed bright catalog (header block followed by data
rows) with a faint catalog yields the bright header, then all bright data
rows in order, then all faint data rows in order; every faint header line
is excluded, so all surviving header lines (the column schema) come from
the bright catalog, and the data-row count is the sum of the two
catalogs' data-row counts. -/
theorem C3_merge (hdr dat faint : List String)
    (hh : ∀ l ∈ hdr, is_header l = true) (hd : ∀ l ∈ dat, is_header l = false) :
    merge (hdr ++ dat) faint =
      hdr ++ dat ++ faint.filter (fun l => !is_header l) ∧
    (merge (hdr ++ dat) faint).countP (fun l => !is_header l) =
      dat.length + faint.countP (fun l => !is_header l) ∧
    ∀ l ∈ merge (hdr ++ dat) faint, is_header l = true → l ∈ hdr := by
  refine ⟨by simp [merge], ?_, ?_⟩
  · simp only [merge, List.countP_append]
    have h1 : hdr.countP (fun l => !is_header l) = 0 := by
      rw [List.countP_eq_zero]
      intro l hl
      simp [hh l hl]
    have h2 : dat.countP (fun l => !is_header l) = dat.length := by
      rw [List.countP_eq_length]
      intro l hl
      simp [hd l hl]
    have h3 : (faint.filter (fun l => !is_header l)).countP (fun l => !is_header l) =
        faint.countP (fun l => !is_header l) := by
      rw [List.countP_eq_length_filter, List.filter_filter, List.countP_eq_length_filter]
      simp
    omega
  · intro l hl hhl
    simp only [merge, List.mem_append] at hl
    rcases hl with (hl | hl) | hl
    · exact hl
    · exact absurd (hd l hl) (by simp [hhl])
    · rcases List.mem_filter.mp hl with ⟨_, hno⟩
      simp [hhl] at hno

/-- Witness for C3 at a concrete bright catalog (one header line, one data
row) and faint catalog (one header line, one data row). -/
theorem C3_merge_witness :
    (∀ l ∈ ["# 1 NUMBER"], is_header l = true) ∧
    (∀ l ∈ ["1 100 200"], is_header l = false) ∧
    merge (["# 1 NUMBER"] ++ ["1 100 200"]) ["# 1 NUMBER", "2 300 400"] =
      ["# 1 NUMBER"] ++ ["1 100 200"] ++
        (["# 1 NUMBER", "2 300 400"].filter (fun l => !is_header l)) ∧
    (merge (["# 1 NUMBER"] ++ ["1 100 200"]) ["# 1 NUMBER", "2 300 400"]).countP
        (fun l => !is_header l) =
      ["1 100 200"].length +
        ["# 1 NUMBER", "2 300 400"].countP (fun l => !is_header l) :=
  ⟨by with_unfolding_all decide, by with_unfolding_all decide,
   (C3_merge ["# 1 NUMBER"] ["1 100 200"] ["# 1 NUMBER", "2 300 400"]
      (by with_unfolding_all decide) (by with_unfolding_all decide)).1,
   (C3_merge ["# 1 NUMBER"] ["1 100 200"] ["# 1 NUMBER", "2 300 400"]
      (by with_unfolding_all decide) (by with_unfolding_all decide)).2.1⟩

/-- Variant of `compactRows_map_ite` for a decidable propositional
row-condition, matching the `if`-statements of the script verbatim. -/
theorem compactRows_map_iteP (p : GalRecord → Prop) [DecidablePred p]
    (cat : List GalRecord) :
    compactRows (cat.map (fun r => if p r then some r else none)) =
      cat.filter (fun r => decide (p r)) := by
  induction cat with
  | nil => rfl
  | cons r rs ih =>
    by_cases h : p r <;>
      simp [compactRows, List.filterMap_cons, h, List.filter_cons] at * <;>
        exact ih

/-! Claim C5: the edge / field-of-view filter. -/

/-- C5: a record survives the edge filter iff its bounding box satisfies
all four strict half-plane inequalities (left `x_min`, top `y_max`, right
`x_max`, bottom `y_min` against the corresponding side lines of the
quadrilateral `A B C D`), the output being the surviving records compacted
in original order; in particular any record whose bounding-box corner
`(x_min, y_min)` equals field corner `A = (390, 321)` is rejected. -/
theorem C5_edge_filter (cat : List GalRecord) :
    edge_overlap_clean cat = cat.filter edge_survives ∧
    (∀ r : GalRecord, edge_survives r = true ↔
      ((r.XMIN_IMAGE : ℚ) <
          (points_to_line edge_A edge_B).1 * (r.XMIN_IMAGE : ℚ) +
            (points_to_line edge_A edge_B).2 ∧
        (r.YMAX_IMAGE : ℚ) <
          (points_to_line edge_B edge_C).1 * (r.YMAX_IMAGE : ℚ) +
            (points_to_line edge_B edge_C).2 ∧
        (r.XMAX_IMAGE : ℚ) <
          (points_to_line edge_C edge_D).1 * (r.XMAX_IMAGE : ℚ) +
            (points_to_line edge_C edge_D).2 ∧
        (r.YMIN_IMAGE : ℚ) >
          (points_to_line edge_D edge_A).1 * (r.YMIN_IMAGE : ℚ) +
            (points_to_line edge_D edge_A).2)) ∧
    (∀ r : GalRecord, r.XMIN_IMAGE = 390 → r.YMIN_IMAGE = 321 →
      edge_survives r = false) := by
  refine ⟨?_, ?_, ?_⟩
  · have h := compactRows_map_ite edge_survives cat
    simpa [edge_overlap_clean] using h
  · intro r
    simp only [edge_survives, Bool.and_eq_true, decide_eq_true_eq]
    tauto
  · intro r h390 _
    have hval : ¬ ((390 : ℚ) <
        (points_to_line edge_A edge_B).1 * (390 : ℚ) +
          (points_to_line edge_A edge_B).2) := by
      simp only [points_to_line, edge_A, edge_B]
      norm_num
    simp [edge_survives, h390, hval]

/-- Record whose bounding-box corner `(x_min, y_min)` is exactly the field
corner `A = (390, 321)`. -/
def rC5 : GalRecord :=
  { XMIN_IMAGE := 390, YMIN_IMAGE := 321, XMAX_IMAGE := 400, YMAX_IMAGE := 400 }

/-- Witness for C5: the concrete corner-touching record is rejected and the
one-record catalog filters to the empty output. -/
theorem C5_edge_filter_witness :
    edge_overlap_clean [rC5] = [rC5].filter edge_survives ∧
    edge_survives rC5 = false :=
  ⟨(C5_edge_filter [rC5]).1, (C5_edge_filter [rC5]).2.2 rC5 rfl rfl⟩

/-! Claim C7: the segmentation filter. -/

/-- C7: the segmentation filter keeps a faint record iff the grid cell at
its integer-truncated centroid is unoccupied (`data[y, x] == 0`); kept
records are copied verbatim (the output is a filter of the input, hence a
sublist: original order, no blank rows, same record shape). -/
theorem C7_segmentation_filter (data : Int → Int → ℚ) (cat : List GalRecord) :
    filter_cat_with_segmentation_map data cat =
      cat.filter (fun r =>
        decide (data (ratTrunc r.Y_IMAGE) (ratTrunc r.X_IMAGE) = 0)) ∧
    (filter_cat_with_segmentation_map data cat).Sublist cat ∧
    ∀ r ∈ cat, (r ∈ filter_cat_with_segmentation_map data cat ↔
      data (ratTrunc r.Y_IMAGE) (ratTrunc r.X_IMAGE) = 0) := by
  have heq : filter_cat_with_segmentation_map data cat =
      cat.filter (fun r =>
        decide (data (ratTrunc r.Y_IMAGE) (ratTrunc r.X_IMAGE) = 0)) := by
    have h := compactRows_map_iteP
      (fun r => data (ratTrunc r.Y_IMAGE) (ratTrunc r.X_IMAGE) = 0) cat
    simpa [filter_cat_with_segmentation_map] using h
  refine ⟨heq, ?_, ?_⟩
  · rw [heq]; exact List.filter_sublist cat
  · intro r hr
    rw [heq, List.mem_filter]
    simp [hr]

/-- Concrete occupancy grid for the C7 witness: only cell `(3, 4)` is 1. -/
def dataC7 : Int → Int → ℚ := fun i j => if i = 3 ∧ j = 4 then 1 else 0

/-- Faint record whose truncated centroid `(x, y) = (4, 3)` hits the
occupied cell `(3, 4)` of `dataC7`. -/
def rC7in : GalRecord := { NUMBER := some 1, X_IMAGE := 47/10, Y_IMAGE := 16/5 }

/-- Faint record whose truncated centroid `(x, y) = (1, 2)` hits a free
cell of `dataC7`. -/
def rC7out : GalRecord := { NUMBER := some 2, X_IMAGE := 3/2, Y_IMAGE := 2 }

/-- Witness for C7 on a concrete grid and a two-record catalog: the record
on the occupied cell is dropped, the other is kept. -/
theorem C7_segmentation_filter_witness :
    filter_cat_with_segmentation_map dataC7 [rC7in, rC7out] =
      ([rC7in, rC7out]).filter (fun r =>
        decide (dataC7 (ratTrunc r.Y_IMAGE) (ratTrunc r.X_IMAGE) = 0)) ∧
    (rC7out ∈ filter_cat_with_segmentation_map dataC7 [rC7in, rC7out] ↔
      dataC7 (ratTrunc rC7out.Y_IMAGE) (ratTrunc rC7out.X_IMAGE) = 0) :=
  ⟨(C7_segmentation_filter dataC7 [rC7in, rC7out]).1,
   (C7_segmentation_filter dataC7 [rC7in, rC7out]).2.2 rC7out
     (by with_unfolding_all decide)⟩

/-! Claim C9: final overlap/null cleanup and renumber. -/

theorem renumberFrom_map_number (n : Int) (cat : List GalRecord) :
    (renumberFrom n cat).map GalRecord.NUMBER =
      (List.range cat.length).map (fun i : Nat => some (n + (i : Int))) := by
  induction cat generalizing n with
  | nil => rfl
  | cons r rs ih =>
    simp only [renumberFrom, List.map_cons, List.length_cons,
      List.range_succ_eq_map, ih (n + 1), List.map_map]
    congr 1
    · simp
    · apply List.map_congr_left
      intro i _
      simp only [Function.comp_apply, Option.some.injEq]
      omega

/-- C9: after diffraction masking, `generate_catalog` runs overlap-delete,
then null-delete, then renumber, in exactly that order, and after the
renumber the identifiers form the contiguous sequence `1..N` in current row
order with no duplicates. -/
theorem C9_final_cleanup (cat : List GalRecord) :
    final_cleanup cat = renumber (delete_null (delete_overlap cat)) ∧
    (final_cleanup cat).map GalRecord.NUMBER =
      (List.range (delete_null (delete_overlap cat)).length).map
        (fun i : Nat => some ((i : Int) + 1)) ∧
    ((final_cleanup cat).map GalRecord.NUMBER).Nodup := by
  have hmap : (final_cleanup cat).map GalRecord.NUMBER =
      (List.range (delete_null (delete_overlap cat)).length).map
        (fun i : Nat => some ((i : Int) + 1)) := by
    rw [final_cleanup, renumber, renumberFrom_map_number]
    apply List.map_congr_left
    intro i _
    congr 1
    omega
  refine ⟨rfl, hmap, ?_⟩
  rw [hmap]
  refine List.Nodup.map ?_ (List.nodup_range _)
  intro a b hab
  simp only [Option.some.injEq] at hab
  omega

/-- Two-row catalog (one duplicate bounding box, one null primary key) for
the C9 witness. -/
def catC9 : List GalRecord :=
  [{ NUMBER := some 7, XMIN_IMAGE := 1, XMAX_IMAGE := 2, YMIN_IMAGE := 3, YMAX_IMAGE := 4 },
   { NUMBER := some 9, XMIN_IMAGE := 1, XMAX_IMAGE := 2, YMIN_IMAGE := 3, YMAX_IMAGE := 4 },
   { NUMBER := none, XMIN_IMAGE := 5, XMAX_IMAGE := 6, YMIN_IMAGE := 7, YMAX_IMAGE := 8 }]

/-- Witness for C9 at a concrete catalog. -/
theorem C9_final_cleanup_witness :
    (final_cleanup catC9).map GalRecord.NUMBER =
      (List.range (delete_null (delete_overlap catC9)).length).map
        (fun i : Nat => some ((i : Int) + 1)) ∧
    ((final_cleanup catC9).map GalRecord.NUMBER).Nodup :=
  ⟨(C9_final_cleanup catC9).2.1, (C9_final_cleanup catC9).2.2⟩

/-! Claim C2: diffraction-mask generation. -/

/-- C2: a spike mask is generated for a record iff
`MAG_AUTO + 25 < cutoff` and `IS_STAR == 1`; for each such record
`radius = np.mean([A_IMAGE, B_IMAGE]) = (A+B)/2`,
`length = m*FLUX_AUTO + b`, the half-width is `w/2` of the filter
parameter, and the 16 local-frame vertices (relative to the centroid,
before the rotation by `theta` about the centroid) are exactly the
double-cross template of the spec. -/
theorem C2_mask_generation (m b w c s cutoff : ℚ) (cat : List GalRecord) :
    (∀ mk, mk ∈ diffraction_masks m b w c s cutoff cat ↔
      ∃ r ∈ cat, (r.MAG_AUTO + 25 < cutoff ∧ r.IS_STAR = 1) ∧
        mk = spike_mask m b w c s r) ∧
    (∀ r : GalRecord, spike_mask m b w c s r =
      rotate
        (spike_x_vertices r.X_IMAGE w (np_mean [r.A_IMAGE, r.B_IMAGE])
          (m * r.FLUX_AUTO + b))
        (spike_y_vertices r.Y_IMAGE w (np_mean [r.A_IMAGE, r.B_IMAGE])
          (m * r.FLUX_AUTO + b))
        r.X_IMAGE r.Y_IMAGE c s) ∧
    (∀ p q : ℚ, np_mean [p, q] = (p + q) / 2) ∧
    (∀ wp : ℚ, cleanup_half_width wp = wp / 2) ∧
    (∀ x0 w2 r2 l2 : ℚ, (spike_x_vertices x0 w2 r2 l2).map (fun v => v - x0) =
      [-w2, -w2, w2, w2, r2, l2, l2, r2, w2, w2, -w2, -w2, -r2, -l2, -l2, -r2]) ∧
    (∀ y0 w2 r2 l2 : ℚ, (spike_y_vertices y0 w2 r2 l2).map (fun v => v - y0) =
      [r2, l2, l2, r2, w2, w2, -w2, -w2, -r2, -l2, -l2, -r2, -w2, -w2, w2, w2]) := by
  refine ⟨?_, fun r => rfl, ?_, ?_, ?_, ?_⟩
  · intro mk
    simp only [diffraction_masks, List.mem_map, List.mem_filter,
      mask_condition, Bool.and_eq_true, decide_eq_true_eq]
    constructor
    · rintro ⟨r, ⟨hr, hc⟩, rfl⟩
      exact ⟨r, hr, hc, rfl⟩
    · rintro ⟨r, hr, hc, rfl⟩
      exact ⟨r, ⟨hr, hc⟩, rfl⟩
  · intro p q
    rw [np_mean]
    simp only [List.sum_cons, List.sum_nil, List.length_cons, List.length_nil,
      add_zero]
    norm_num
  · intro wp
    rw [cleanup_half_width]
    ring
  · intro x0 w2 r2 l2
    simp only [spike_x_vertices, List.map_cons, List.map_nil]
    norm_num
  · intro y0 w2 r2 l2
    simp only [spike_y_vertices, List.map_cons, List.map_nil]
    norm_num

/-- Witness for C2: the mean and half-width identities evaluated at the
f606w-like concrete values used elsewhere in this development. -/
theorem C2_mask_generation_witness :
    np_mean [1/10, 3/10] = ((1:ℚ)/10 + 3/10) / 2 ∧
    cleanup_half_width (3/5) = ((3:ℚ)/5) / 2 :=
  ⟨(C2_mask_generation 0 (2/5) (3/10) 1 0 19 []).2.2.1 (1/10) (3/10),
   (C2_mask_generation 0 (2/5) (3/10) 1 0 19 []).2.2.2.1 (3/5)⟩

/-! Claim C8: segmentation-map rasterization. -/

/-- Bright record used for the C8 counterexample: its bounding box starts
at the image edge, so the dilated box reaches negative pixel indices. -/
def rC8 : GalRecord :=
  { XMIN_IMAGE := 0, XMAX_IMAGE := 1, YMIN_IMAGE := 2, YMAX_IMAGE := 3 }

/-- C8 counterexample: with image extent 6×6 and margin 2, the dilated box
of `rC8` spans x-indices `-2..2`; the write at `x = -2` is *not* dropped
but wraps around (numpy negative indexing) and sets cell `(2, 4)`, whose
grid x-index 4 lies outside the claimed dilated box
`[XMIN_IMAGE - 2, XMAX_IMAGE + 2] = [-2, 3]`, so a cell of the dilated box
falling outside the image extent *is* written into the grid. -/
theorem C8_wraparound_counterexample :
    (2, 4) ∈ make_segmentation_map 6 6 2 [rC8] ∧
    ¬ (rC8.XMIN_IMAGE - 2 ≤ 4 ∧ 4 ≤ rC8.XMAX_IMAGE + 2) := by
  with_unfolding_all decide

/-- C8 amended: the rasterized cells are exactly the images of the points
`(y, x)` with `x ∈ [XMIN-enlarge, XMAX+enlarge)` and
`y ∈ [YMIN-enlarge, YMAX+enlarge)` of some bright record (half-open
ranges, so the high sides are dilated by `enlarge - 1` only) whose indices
lie in `[-x_dim, x_dim) × [-y_dim, y_dim)`; indices at or beyond the
extent are silently dropped (caught `IndexError`), while negative in-range
indices wrap to the opposite side via `emod`; the operation is total and
never fails. -/
theorem C8_segmentation_map_amended (x_dim y_dim enlarge : Int)
    (cat : List GalRecord) (i j : Int) :
    (i, j) ∈ make_segmentation_map x_dim y_dim enlarge cat ↔
      ∃ r ∈ cat, ∃ x y : Int,
        r.XMIN_IMAGE - enlarge ≤ x ∧ x < r.XMAX_IMAGE + enlarge ∧
        r.YMIN_IMAGE - enlarge ≤ y ∧ y < r.YMAX_IMAGE + enlarge ∧
        -x_dim ≤ y ∧ y < x_dim ∧ -y_dim ≤ x ∧ x < y_dim ∧
        i = y.emod x_dim ∧ j = x.emod y_dim := by
  simp only [make_segmentation_map, List.mem_flatMap, List.mem_filterMap,
    mem_intRange]
  constructor
  · rintro ⟨r, hr, x, hx, y, hy, hif⟩
    by_cases hc : -x_dim ≤ y ∧ y < x_dim ∧ -y_dim ≤ x ∧ x < y_dim
    · rw [if_pos hc] at hif
      simp only [Option.some.injEq, Prod.mk.injEq] at hif
      exact ⟨r, hr, x, y, hx.1, hx.2, hy.1, hy.2, hc.1, hc.2.1, hc.2.2.1,
        hc.2.2.2, hif.1.symm, hif.2.symm⟩
    · rw [if_neg hc] at hif
      cases hif
  · rintro ⟨r, hr, x, y, h1, h2, h3, h4, h5, h6, h7, h8, rfl, rfl⟩
    refine ⟨r, hr, x, ⟨h1, h2⟩, y, ⟨h3, h4⟩, ?_⟩
    rw [if_pos ⟨h5, h6, h7, h8⟩]

/-- Witness for the amended C8 at the concrete counterexample input: the
wrapped cell `(2, 4)` originates from the in-range write at `x = -2`. -/
theorem C8_segmentation_map_witness :
    (2, 4) ∈ make_segmentation_map 6 6 2 [rC8] ↔
      ∃ r ∈ [rC8], ∃ x y : Int,
        r.XMIN_IMAGE - 2 ≤ x ∧ x < r.XMAX_IMAGE + 2 ∧
        r.YMIN_IMAGE - 2 ≤ y ∧ y < r.YMAX_IMAGE + 2 ∧
        -6 ≤ y ∧ y < 6 ∧ -6 ≤ x ∧ x < 6 ∧
        2 = y.emod 6 ∧ 4 = x.emod 6 :=
  C8_segmentation_map_amended 6 6 2 [rC8] 2 4

/-! Claims C10 and C1: the diffraction-masking deletion loop. -/

theorem mask_bools_eq_nil_of_masks_nil (pixels : List (Int × Int)) :
    mask_bools [] pixels = [] := by
  simp [mask_bools]

theorem record_pixels_eq_nil (r : GalRecord)
    (hx : r.XMIN_IMAGE = r.XMAX_IMAGE) (hy : r.YMIN_IMAGE = r.YMAX_IMAGE) :
    record_pixels r = [] := by
  simp [record_pixels, perimeter_pixels, hx, hy, intRange_self]

theorem delete_numbers_error_of_empty_bools
    (masks : List (List ℚ × List ℚ)) (cat : List GalRecord) (r : GalRecord)
    (hr : r ∈ cat) (hstar : r.IS_STAR ≠ 1)
    (hb : mask_bools masks (record_pixels r) = []) :
    diffraction_delete_numbers masks cat = Except.error () := by
  induction cat with
  | nil => cases hr
  | cons q qs ih =>
    rw [diffraction_delete_numbers]
    rcases List.mem_cons.mp hr with rfl | hmem
    · rw [if_neg hstar, hb]
    · by_cases hq : q.IS_STAR = 1
      · rw [if_pos hq]
        exact ih hmem
      · rw [if_neg hq]
        cases hqb : mask_bools masks (record_pixels q) with
        | nil => rfl
        | cons b bs => rw [ih hmem]

theorem delete_numbers_ok (masks : List (List ℚ × List ℚ)) (cat : List GalRecord)
    (h : ∀ r ∈ cat, r.IS_STAR ≠ 1 → mask_bools masks (record_pixels r) ≠ []) :
    diffraction_delete_numbers masks cat =
      Except.ok ((cat.filter (fun r =>
        !decide (r.IS_STAR = 1) && (mask_bools masks (record_pixels r)).any id)).map
          GalRecord.NUMBER) := by
  induction cat with
  | nil => rfl
  | cons q qs ih =>
    have hrest := ih (fun r hr => h r (List.mem_cons_of_mem q hr))
    rw [diffraction_delete_numbers]
    by_cases hq : q.IS_STAR = 1
    · rw [if_pos hq, hrest, List.filter_cons]
      simp [hq]
    · rw [if_neg hq]
      cases hqb : mask_bools masks (record_pixels q) with
      | nil => exact absurd hqb (h q (List.mem_cons_self q qs) hq)
      | cons b bs =>
        rw [hrest, List.filter_cons]
        by_cases hany : (b :: bs).any id
        · simp [hq, hqb, hany]
        · simp [hq, hqb, hany]

theorem mask_bools_any_iff (masks : List (List ℚ × List ℚ))
    (pixels : List (Int × Int)) :
    ((mask_bools masks pixels).any id = true) ↔
      ∃ p ∈ pixels, ∃ mk ∈ masks, inpoly (p.1 : ℚ) (p.2 : ℚ) mk.1 mk.2 = true := by
  simp only [mask_bools, List.any_eq_true, List.mem_flatMap, List.mem_map, id]
  constructor
  · rintro ⟨x, ⟨p, hp, mk, hmk, rfl⟩, hx⟩
    exact ⟨p, hp, mk, hmk, hx⟩
  · rintro ⟨p, hp, mk, hmk, hx⟩
    exact ⟨_, ⟨p, hp, mk, hmk, rfl⟩, hx⟩

theorem perimeter_pixels_mem (x_min y_min x_max y_max a c : Int)
    (hx : x_min ≤ x_max) (hy : y_min ≤ y_max) :
    ((a, c) ∈ perimeter_pixels x_min y_min x_max y_max ↔
      (x_min ≤ a ∧ a ≤ x_max ∧ y_min ≤ c ∧ c ≤ y_max ∧
        (a = x_min ∨ a = x_max ∨ c = y_min ∨ c = y_max) ∧
        ¬(a = x_max ∧ c = y_max))) := by
  simp only [perimeter_pixels, List.mem_append, List.mem_map, mem_intRange,
    Prod.mk.injEq]
  constructor
  · rintro (((⟨x, ⟨h1, h2⟩, rfl, rfl⟩ | ⟨y, ⟨h1, h2⟩, rfl, rfl⟩) |
      ⟨x, ⟨h1, h2⟩, rfl, rfl⟩) | ⟨y, ⟨h1, h2⟩, rfl, rfl⟩) <;> omega
  · intro hcon
    by_cases hc : c = y_min
    · by_cases ha : a = x_max
      · right; exact ⟨c, ⟨by omega, by omega⟩, by omega, rfl⟩
      · left; left; left; exact ⟨a, ⟨by omega, by omega⟩, rfl, by omega⟩
    · by_cases hcy : c = y_max
      · left; right; exact ⟨a, ⟨by omega, by omega⟩, rfl, by omega⟩
      · by_cases ha : a = x_min
        · left; left; right; exact ⟨c, ⟨by omega, by omega⟩, by omega, rfl⟩
        · right; exact ⟨c, ⟨by omega, by omega⟩, by omega, rfl⟩

/-- Variant of `compactRows_map_ite` with the branches swapped, matching
the deletion test `if catalog['NUMBER'][i] not in delete_numbers`. -/
theorem compactRows_map_iteN (p : GalRecord → Prop) [DecidablePred p]
    (cat : List GalRecord) :
    compactRows (cat.map (fun r => if p r then none else some r)) =
      cat.filter (fun r => !decide (p r)) := by
  induction cat with
  | nil => rfl
  | cons r rs ih =>
    by_cases h : p r <;>
      simp [compactRows, List.filterMap_cons, h, List.filter_cons] at * <;>
        exact ih

theorem diffraction_cleanup_ok (masks : List (List ℚ × List ℚ))
    (cat : List GalRecord)
    (hnodup : (cat.map GalRecord.NUMBER).Nodup)
    (h : ∀ r ∈ cat, r.IS_STAR ≠ 1 → mask_bools masks (record_pixels r) ≠ []) :
    diffraction_cleanup_with masks cat =
      Except.ok (cat.filter (fun r =>
        decide (r.IS_STAR = 1) ||
          !((mask_bools masks (record_pixels r)).any id))) := by
  rw [diffraction_cleanup_with, delete_numbers_ok masks cat h]
  dsimp only
  rw [compactRows_map_iteN]
  congr 1
  apply List.filter_congr
  intro r hr
  have hinj := List.inj_on_of_nodup_map hnodup
  by_cases hs : r.IS_STAR = 1
  · have hnot : r.NUMBER ∉ (cat.filter (fun q =>
        !decide (q.IS_STAR = 1) && (mask_bools masks (record_pixels q)).any id)).map
          GalRecord.NUMBER := by
      intro hmem
      obtain ⟨q, hq, hqn⟩ := List.mem_map.mp hmem
      obtain ⟨hqcat, hqpred⟩ := List.mem_filter.mp hq
      have : q = r := hinj hqcat hr hqn
      subst this
      simp [hs] at hqpred
    simp [hs, hnot]
  · by_cases hany : (mask_bools masks (record_pixels r)).any id
    · have hmem : r.NUMBER ∈ (cat.filter (fun q =>
          !decide (q.IS_STAR = 1) && (mask_bools masks (record_pixels q)).any id)).map
            GalRecord.NUMBER :=
        List.mem_map.mpr ⟨r, List.mem_filter.mpr ⟨hr, by simp [hs, hany]⟩, rfl⟩
      simp [hs, hany, hmem]
    · have hnot : r.NUMBER ∉ (cat.filter (fun q =>
          !decide (q.IS_STAR = 1) && (mask_bools masks (record_pixels q)).any id)).map
            GalRecord.NUMBER := by
        intro hmem
        obtain ⟨q, hq, hqn⟩ := List.mem_map.mp hmem
        obtain ⟨hqcat, hqpred⟩ := List.mem_filter.mp hq
        have : q = r := hinj hqcat hr hqn
        subst this
        simp [hs, hany] at hqpred
      simp [hs, hany, hnot]

/-- The records that survive `diffraction_mask_cleanup`: the stars, and the
non-stars none of whose sampled pixels lies in any generated mask. -/
def diffraction_survivors (m b wparam c s cutoff : ℚ)
    (cat : List GalRecord) : List GalRecord :=
  cat.filter (fun r => decide (r.IS_STAR = 1) ||
    !((mask_bools (diffraction_masks m b (cleanup_half_width wparam) c s cutoff cat)
        (record_pixels r)).any id))

/-- C10: in the diffraction-masking stage the containment decision applies
`max` to the per-pixel-per-mask list; whenever that list is empty — because
no mask polygon was generated, or because the record's sampled perimeter
pixel list is empty (`x_min == x_max` and `y_min == y_max` after integer
truncation) — the stage raises an error (`max([])` is a `ValueError`) on
that non-star record instead of keeping it, and no output is produced. -/
theorem C10_empty_bools_error (m b wparam c s cutoff : ℚ)
    (cat : List GalRecord) (r : GalRecord) (hr : r ∈ cat)
    (hstar : r.IS_STAR ≠ 1)
    (hc : diffraction_masks m b (cleanup_half_width wparam) c s cutoff cat = [] ∨
      (r.XMIN_IMAGE = r.XMAX_IMAGE ∧ r.YMIN_IMAGE = r.YMAX_IMAGE)) :
    mask_bools (diffraction_masks m b (cleanup_half_width wparam) c s cutoff cat)
      (record_pixels r) = [] ∧
    diffraction_mask_cleanup m b wparam c s cutoff cat = Except.error () := by
  have hb : mask_bools
      (diffraction_masks m b (cleanup_half_width wparam) c s cutoff cat)
      (record_pixels r) = [] := by
    rcases hc with hms | ⟨hxe, hye⟩
    · rw [hms]
      exact mask_bools_eq_nil_of_masks_nil _
    · rw [record_pixels_eq_nil r hxe hye]
      simp [mask_bools]
  refine ⟨hb, ?_⟩
  rw [diffraction_mask_cleanup, diffraction_cleanup_with,
    delete_numbers_error_of_empty_bools _ cat r hr hstar hb]

/-- Degenerate non-star record (`x_min = x_max`, `y_min = y_max`) for the
C10 witness. -/
def rC10 : GalRecord :=
  { NUMBER := some 3, IS_STAR := 0,
    XMIN_IMAGE := 5, XMAX_IMAGE := 5, YMIN_IMAGE := 7, YMAX_IMAGE := 7 }

/-- Witness for C10 at a concrete one-record catalog: the pixel list is
empty (and, here, no mask was generated either), so the stage errors. -/
theorem C10_empty_bools_error_witness :
    rC10 ∈ [rC10] ∧ rC10.IS_STAR ≠ 1 ∧
    mask_bools (diffraction_masks 0 (2/5) (cleanup_half_width (3/5)) 1 0 19 [rC10])
      (record_pixels rC10) = [] ∧
    diffraction_mask_cleanup 0 (2/5) (3/5) 1 0 19 [rC10] = Except.error () :=
  ⟨List.mem_singleton.mpr rfl, by with_unfolding_all decide,
   C10_empty_bools_error 0 (2/5) (3/5) 1 0 19 [rC10] rC10
     (List.mem_singleton.mpr rfl) (by with_unfolding_all decide)
     (Or.inr ⟨rfl, rfl⟩)⟩

/-- C1 amended: given that every non-star record yields a nonempty
pixel-mask test list (otherwise the stage errors, claim C10) and that
record identifiers are unique, the stage succeeds; star records are never
deleted; a non-star record is deleted iff some *sampled* pixel lies inside
at least one generated mask polygon under the point-in-polygon test; the
surviving records are copied in original order with holes compacted away;
and the sampled pixels are every integer pixel of the bounding-box
perimeter *except the top-right corner* `(x_max, y_max)`, which the four
half-open `range(...)` edge lists never cover — not every perimeter pixel,
as the claim stated. -/
theorem C1_diffraction_masking_amended (m b wparam c s cutoff : ℚ)
    (cat : List GalRecord)
    (hnodup : (cat.map GalRecord.NUMBER).Nodup)
    (hne : ∀ r ∈ cat, r.IS_STAR ≠ 1 →
      mask_bools (diffraction_masks m b (cleanup_half_width wparam) c s cutoff cat)
        (record_pixels r) ≠ []) :
    diffraction_mask_cleanup m b wparam c s cutoff cat =
      Except.ok (diffraction_survivors m b wparam c s cutoff cat) ∧
    (∀ r ∈ cat, r.IS_STAR = 1 →
      r ∈ diffraction_survivors m b wparam c s cutoff cat) ∧
    (∀ r ∈ cat, r.IS_STAR ≠ 1 →
      (r ∉ diffraction_survivors m b wparam c s cutoff cat ↔
        ∃ p ∈ record_pixels r,
          ∃ mk ∈ diffraction_masks m b (cleanup_half_width wparam) c s cutoff cat,
            inpoly (p.1 : ℚ) (p.2 : ℚ) mk.1 mk.2 = true)) ∧
    (∀ x_min y_min x_max y_max a c2 : Int, x_min ≤ x_max → y_min ≤ y_max →
      ((a, c2) ∈ perimeter_pixels x_min y_min x_max y_max ↔
        (x_min ≤ a ∧ a ≤ x_max ∧ y_min ≤ c2 ∧ c2 ≤ y_max ∧
          (a = x_min ∨ a = x_max ∨ c2 = y_min ∨ c2 = y_max) ∧
          ¬(a = x_max ∧ c2 = y_max)))) := by
  refine ⟨?_, ?_, ?_, fun x_min y_min x_max y_max a c2 hx hy =>
    perimeter_pixels_mem x_min y_min x_max y_max a c2 hx hy⟩
  · rw [diffraction_mask_cleanup]
    exact diffraction_cleanup_ok _ cat hnodup hne
  · intro r hr hs
    simp only [diffraction_survivors, List.mem_filter]
    exact ⟨hr, by simp [hs]⟩
  · intro r hr hs
    rw [← mask_bools_any_iff]
    simp only [diffraction_survivors, List.mem_filter]
    simp [hr, hs]

/-- Bright star for the C1 counterexample and witness: it passes the mask
cutoff (`-10 + 25 < 19`), and with spike parameters `m = 0`, `b = 2/5`,
`w = 3/5` and no rotation its generated mask polygon is a small double
cross around `(10, 10)` whose only interior integer pixel is `(10, 10)`. -/
def starC1 : GalRecord :=
  { NUMBER := some 1, X_IMAGE := 10, Y_IMAGE := 10,
    A_IMAGE := 1/10, B_IMAGE := 3/10, MAG_AUTO := -10, IS_STAR := 1,
    FLUX_AUTO := 0, XMIN_IMAGE := 20, XMAX_IMAGE := 21,
    YMIN_IMAGE := 20, YMAX_IMAGE := 21 }

/-- Non-star record whose bounding box `[8,10] × [8,10]` has the generated
mask's only interior pixel exactly at its top-right perimeter corner
`(10, 10)`. -/
def galC1 : GalRecord :=
  { NUMBER := some 2, X_IMAGE := 9, Y_IMAGE := 9, MAG_AUTO := 0, IS_STAR := 0,
    XMIN_IMAGE := 8, XMAX_IMAGE := 10, YMIN_IMAGE := 8, YMAX_IMAGE := 10 }

/-- C1 counterexample: `galC1` is a non-star record, a pixel of its
bounding-box perimeter (namely the corner `(10, 10)`) lies inside a
generated mask polygon under the point-in-polygon test — so under the
claim, which asserts every perimeter integer pixel is sampled, it should
be marked for deletion — yet the stage keeps it: the half-open `range`
edge lists never sample the corner `(x_max, y_max)`. -/
theorem C1_corner_pixel_counterexample :
    galC1.IS_STAR ≠ 1 ∧
    ((spec_perimeter_pixels galC1.XMIN_IMAGE galC1.YMIN_IMAGE
        galC1.XMAX_IMAGE galC1.YMAX_IMAGE).any (fun p =>
      (diffraction_masks 0 (2/5) (cleanup_half_width (3/5)) 1 0 19
          [starC1, galC1]).any (fun mk =>
        inpoly (p.1 : ℚ) (p.2 : ℚ) mk.1 mk.2))) = true ∧
    diffraction_mask_cleanup 0 (2/5) (3/5) 1 0 19 [starC1, galC1] =
      Except.ok [starC1, galC1] := by
  refine ⟨by with_unfolding_all decide, by with_unfolding_all decide, ?_⟩
  with_unfolding_all rfl

/-- Witness for the amended C1 at a concrete two-record catalog with
distinct identifiers and nonempty pixel-mask lists. -/
theorem C1_diffraction_masking_witness :
    ([starC1, galC1].map GalRecord.NUMBER).Nodup ∧
    (∀ r ∈ [starC1, galC1], r.IS_STAR ≠ 1 →
      mask_bools (diffraction_masks 0 (2/5) (cleanup_half_width (3/5)) 1 0 19
        [starC1, galC1]) (record_pixels r) ≠ []) ∧
    diffraction_mask_cleanup 0 (2/5) (3/5) 1 0 19 [starC1, galC1] =
      Except.ok (diffraction_survivors 0 (2/5) (3/5) 1 0 19 [starC1, galC1]) :=
  ⟨by with_unfolding_all decide, by with_unfolding_all decide,
   (C1_diffraction_masking_amended 0 (2/5) (3/5) 1 0 19 [starC1, galC1]
     (by with_unfolding_all decide) (by with_unfolding_all decide)).1⟩
